import Mathlib

/-!
Verification of the Lifeflow backend's streak/notification core.

Shallow embedding conventions:
* Calendar dates are modelled as `Int` day ordinals; Python's
  `(today - last).days` on `datetime.date` values is exact integer
  subtraction of day ordinals.
* Wall-clock instants (`datetime` values, naive UTC) are modelled as `Int`
  minutes since an epoch; the UTC calendar day containing an instant `t`
  is `t / 1440` (Lean's `Int` division is Euclidean division, which for a
  positive divisor is floor division, matching Python).
* The SQLAlchemy session/database is a `DB` record of three tables (lists
  of rows).  Each request handler becomes a function from a `DB` and the
  request parameters to a new `DB` plus a response.
* `uuid.uuid4()` id generation is modelled by explicit fresh-id
  parameters / a `Nat` seed: ids never influence any verified behaviour.
* `datetime.now(timezone.utc)` / `datetime.utcnow()` / `date.today()` are
  nondeterministic inputs, passed in as explicit parameters `nowUtc`
  (minutes) and `serverToday` (the server's local calendar date, used by
  the code paths that call `date.today()`).
* SQLAlchemy's `Result.scalar_one_or_none`, which raises
  `MultipleResultsFound` on two or more rows, is modelled by
  `scalarOneOrNone` returning `Except`.
-/

namespace Lifeflow

/-- Row of `task_cards` (`app/models/task_card.py`).  `created_at` /
`updated_at` bookkeeping columns are irrelevant to every verified
operation and are omitted. -/
structure TaskCard where
  id : String
  title : String
  content : String
  list_id : Option String
  is_habit : Bool
  reminder_time : Option Int
  current_streak : Int
  longest_streak : Int
  last_checkin_date : Option Int
  is_deleted : Bool
  deriving Repr, DecidableEq

/-- Row of `checkin_records` (`app/models/checkin_record.py`). -/
structure CheckinRecord where
  id : String
  task_id : String
  checkin_date : Int
  checkin_time : Int
  deriving Repr, DecidableEq

/-- The free-form JSON payload dict of a notification, restricted to the
keys the source ever writes or reads (`habit_id`, `habit_title`,
`current_streak`, `at_risk`, `streak`, `milestone`, `completed_count`,
`date`); an absent key is `none`. -/
structure NotifData where
  habit_id : Option String := none
  habit_title : Option String := none
  current_streak : Option Int := none
  at_risk : Option Bool := none
  streak : Option Int := none
  milestone : Option Int := none
  completed_count : Option Nat := none
  date : Option Int := none
  deriving Repr, DecidableEq

/-- Row of `notifications` (`app/models/notification.py`). -/
structure Notification where
  id : String
  type : String
  title : String
  message : String
  data : Option NotifData
  is_read : Bool
  created_at : Int
  user_id : String
  deriving Repr, DecidableEq

/-- The relational store: the three tables the verified core touches. -/
structure DB where
  tasks : List TaskCard
  checkins : List CheckinRecord
  notifications : List Notification
  deriving Repr, DecidableEq

/-- `Result.scalar_one_or_none()`: `none` for no row, the row if unique,
and the `MultipleResultsFound` error when the query returned two or more
rows. -/
def scalarOneOrNone {α : Type} : List α → Except String (Option α)
  | [] => Except.ok none
  | [x] => Except.ok (some x)
  | _ :: _ :: _ => Except.error "MultipleResultsFound"

/-- `get_local_date` (`app/api/tasks.py`): current local calendar date,
where a positive offset is west of UTC (subtracted from the UTC
instant). -/
def get_local_date (nowUtc : Int) (timezone_offset_minutes : Int) : Int :=
  (nowUtc - timezone_offset_minutes) / 1440

/-- `calculate_streak` (`app/api/tasks.py`): the streak engine. -/
def calculate_streak (last_checkin_date : Option Int) (current_streak : Int)
    (today : Int) : Int :=
  match last_checkin_date with
  | none => 1
  | some last =>
    if last = today then
      current_streak
    else
      let days_since_last := today - last
      if days_since_last = 1 then current_streak + 1 else 1

/-- The four-branch table of spec §4.2, written from the spec's words
(first-ever check-in → 1; same day → unchanged; exactly one day later →
increment; otherwise — gap of two or more days, or a future
`lastCheckinDate` — reset to 1). -/
def nextStreakSpec (lastCheckinDate : Option Int) (currentStreak : Int)
    (today : Int) : Int :=
  match lastCheckinDate with
  | none => 1
  | some last =>
    if last = today then currentStreak
    else if today - last = 1 then currentStreak + 1
    else 1

/-! ### Notification service (`app/services/notification_service.py`) -/

/-- `ACHIEVEMENT_MILESTONES` from the notification service. -/
def ACHIEVEMENT_MILESTONES : List Int := [7, 14, 30, 60, 100]

/-- `datetime(utc_now.year, utc_now.month, utc_now.day, 0, 0, 0)`: the
start (00:00) of the UTC calendar day containing the instant `nowUtc`,
recomputed by each `_check_existing_*` dedup helper. -/
def startOfUtcDay (nowUtc : Int) : Int :=
  nowUtc / 1440 * 1440

/-- The dedup window test `start_of_day_utc <= created_at < end_of_day_utc`
with `end_of_day_utc = start_of_day_utc + timedelta(days=1)`. -/
def inUtcDayWindow (created_at nowUtc : Int) : Bool :=
  startOfUtcDay nowUtc ≤ created_at && created_at < startOfUtcDay nowUtc + 1440

/-- `_create_notification`: builds the row (`is_read = False`,
`created_at = datetime.utcnow()`, `user_id = "default"`), adds and
commits it.  The `uuid.uuid4()` id is the explicit `nid` parameter. -/
def create_notification (db : DB) (notification_type title message : String)
    (data : Option NotifData) (nowUtc : Int) (nid : String) : DB × Notification :=
  let n : Notification :=
    { id := nid, type := notification_type, title := title, message := message,
      data := data, is_read := false, created_at := nowUtc, user_id := "default" }
  ({ db with notifications := db.notifications ++ [n] }, n)

/-- `_check_existing_reminder(habit_id, today)`: any `habit_reminder`
notification created inside the current UTC day whose payload names this
habit and does **not** carry a truthy `at_risk` marker.  As in the
source, the `today` parameter is unused: the window comes from the
server's UTC clock. -/
def check_existing_reminder (db : DB) (habit_id : String) (today : Int)
    (nowUtc : Int) : Bool :=
  db.notifications.any fun n =>
    n.type == "habit_reminder" && inUtcDayWindow n.created_at nowUtc &&
      (match n.data with
       | some d => d.habit_id == some habit_id && !(d.at_risk == some true)
       | none => false)

/-- `_check_existing_at_risk(habit_id, today)`: like
`check_existing_reminder` but requiring a truthy `at_risk` marker. -/
def check_existing_at_risk (db : DB) (habit_id : String) (today : Int)
    (nowUtc : Int) : Bool :=
  db.notifications.any fun n =>
    n.type == "habit_reminder" && inUtcDayWindow n.created_at nowUtc &&
      (match n.data with
       | some d => d.habit_id == some habit_id && d.at_risk == some true
       | none => false)

/-- `_check_existing_achievement(habit_id, milestone)`: any `achievement`
notification whose payload carries exactly this `(habit_id, milestone)`
pair — no date condition at all.  (`json_extract` on a NULL payload
yields NULL, which never compares equal.) -/
def check_existing_achievement (db : DB) (habit_id : String)
    (milestone : Int) : Bool :=
  db.notifications.any fun n =>
    n.type == "achievement" &&
      (match n.data with
       | some d => d.habit_id == some habit_id && d.milestone == some milestone
       | none => false)

/-- `_check_existing_daily_complete(today)`: `scalar_one_or_none` over
the `daily_complete` notifications of the current UTC day (raises
`MultipleResultsFound` on two or more; the `today` parameter is again
unused). -/
def check_existing_daily_complete (db : DB) (today : Int) (nowUtc : Int) :
    Except String Bool :=
  match scalarOneOrNone (db.notifications.filter fun n =>
      n.type == "daily_complete" && inUtcDayWindow n.created_at nowUtc) with
  | Except.error e => Except.error e
  | Except.ok o => Except.ok o.isSome

/-- SQL's three-valued `!=` on the nullable `last_checkin_date` column:
a NULL value satisfies neither `=` nor `!=`, so `WHERE
last_checkin_date != :today` filters NULL rows out. -/
def sqlDateNe : Option Int → Int → Bool
  | none, _ => false
  | some d, today => d != today

/-- Payload written by `generate_habit_reminders`. -/
def reminderPayload (habit : TaskCard) : NotifData :=
  { habit_id := some habit.id, habit_title := some habit.title,
    current_streak := some habit.current_streak }

/-- Payload written by `generate_at_risk_notifications`. -/
def atRiskPayload (habit : TaskCard) : NotifData :=
  { habit_id := some habit.id, habit_title := some habit.title,
    current_streak := some habit.current_streak, at_risk := some true }

/-- Payload written by `check_streak_achievement`. -/
def achievementPayload (habit_id habit_title : String) (streak : Int) :
    NotifData :=
  { habit_id := some habit_id, habit_title := some habit_title,
    streak := some streak, milestone := some streak }

/-- Payload written by `check_daily_complete`; the `date` field models
`today.isoformat()`. -/
def dailyCompletePayload (completed_count : Nat) (today : Int) : NotifData :=
  { completed_count := some completed_count, date := some today }

/-- The `for habit in habits` loop of `generate_habit_reminders`: skip
habits already checked in today (Python `==` on `date|None`), skip
habits with a positive streak, skip habits with an existing reminder
today, otherwise create (and immediately commit) one reminder.  Each
`_check_existing_reminder` call queries the store as grown so far. -/
def generateRemindersLoop (db : DB) (today nowUtc : Int) (seed : Nat) :
    List TaskCard → DB × List Notification
  | [] => (db, [])
  | habit :: rest =>
    if habit.last_checkin_date == some today then
      generateRemindersLoop db today nowUtc seed rest
    else if decide (0 < habit.current_streak) then
      generateRemindersLoop db today nowUtc seed rest
    else if check_existing_reminder db habit.id today nowUtc then
      generateRemindersLoop db today nowUtc seed rest
    else
      let p := create_notification db "habit_reminder"
        ("习惯提醒: " ++ habit.title)
        ("别忘了完成今天的「" ++ habit.title ++ "」习惯打卡！")
        (some (reminderPayload habit)) nowUtc ("reminder-" ++ toString seed)
      let q := generateRemindersLoop p.1 today nowUtc (seed + 1) rest
      (q.1, p.2 :: q.2)

/-- `generate_habit_reminders()`: `today = date.today()` is the server's
local calendar date, passed as `serverToday`. -/
def generate_habit_reminders (db : DB) (serverToday nowUtc : Int)
    (seed : Nat) : DB × List Notification :=
  let habits := db.tasks.filter fun t => t.is_habit && !t.is_deleted
  generateRemindersLoop db serverToday nowUtc seed habits

/-- The `for habit in habits` loop of `generate_at_risk_notifications`:
create one at-risk warning per listed habit unless one already exists in
the current UTC day. -/
def generateAtRiskLoop (db : DB) (today nowUtc : Int) (seed : Nat) :
    List TaskCard → DB × List Notification
  | [] => (db, [])
  | habit :: rest =>
    if check_existing_at_risk db habit.id today nowUtc then
      generateAtRiskLoop db today nowUtc seed rest
    else
      let p := create_notification db "habit_reminder"
        "⚠️ 连续打卡即将中断"
        ("「" ++ habit.title ++ "」已连续打卡 " ++
          toString habit.current_streak ++ " 天，今天还没打卡哦！")
        (some (atRiskPayload habit)) nowUtc ("atrisk-" ++ toString seed)
      let q := generateAtRiskLoop p.1 today nowUtc (seed + 1) rest
      (q.1, p.2 :: q.2)

/-- `generate_at_risk_notifications()`: the SQL filter selects active
habit tasks with `current_streak > 0` and `last_checkin_date != today`
(three-valued `!=`, `today = date.today()` = `serverToday`). -/
def generate_at_risk_notifications (db : DB) (serverToday nowUtc : Int)
    (seed : Nat) : DB × List Notification :=
  let habits := db.tasks.filter fun t =>
    t.is_habit && !t.is_deleted && decide (0 < t.current_streak) &&
      sqlDateNe t.last_checkin_date serverToday
  generateAtRiskLoop db serverToday nowUtc seed habits

/-- `check_streak_achievement(habit_id, streak, habit_title)`. -/
def check_streak_achievement (db : DB) (habit_id : String) (streak : Int)
    (habit_title : String) (nowUtc : Int) (nid : String) :
    DB × Option Notification :=
  if !(ACHIEVEMENT_MILESTONES.contains streak) then (db, none)
  else if check_existing_achievement db habit_id streak then (db, none)
  else
    let p := create_notification db "achievement"
      "🎉 成就解锁！"
      ("恭喜！「" ++ habit_title ++ "」已连续打卡 " ++ toString streak ++ " 天！")
      (some (achievementPayload habit_id habit_title streak)) nowUtc nid
    (p.1, some p.2)

/-- `check_daily_complete()`: no-op when there is no active habit or some
active habit is not checked in today (`today = date.today()` =
`serverToday`); otherwise create the daily-complete notification unless
one exists in the current UTC day (`MultipleResultsFound` propagates as
an error). -/
def check_daily_complete (db : DB) (serverToday nowUtc : Int) (nid : String) :
    Except String (DB × Option Notification) :=
  let habits := db.tasks.filter fun t => t.is_habit && !t.is_deleted
  if habits.isEmpty then Except.ok (db, none)
  else if !(habits.all fun h => h.last_checkin_date == some serverToday) then
    Except.ok (db, none)
  else
    match check_existing_daily_complete db serverToday nowUtc with
    | Except.error e => Except.error e
    | Except.ok true => Except.ok (db, none)
    | Except.ok false =>
      let p := create_notification db "daily_complete"
        "🌟 今日习惯全部完成！"
        ("太棒了！你已完成今天的所有 " ++ toString habits.length ++ " 个习惯！")
        (some (dailyCompletePayload habits.length serverToday)) nowUtc nid
      Except.ok (p.1, some p.2)

/-! ### Check-in endpoint (`app/api/tasks.py`, `checkin_task`) -/

/-- Errors surfaced by a request handler: `notFound` is the 404 raised
for an unresolvable id; `internal` is any uncaught exception (a 500). -/
inductive ApiError where
  | notFound (detail : String)
  | internal (detail : String)
  deriving Repr, DecidableEq

/-- Committing a mutation of a fetched ORM row: the row with the same
primary key is replaced. -/
def replaceTask (tasks : List TaskCard) (updated : TaskCard) : List TaskCard :=
  tasks.map fun t => if t.id == updated.id then updated else t

/-- `POST /tasks/«task_id»/checkin`: look the task up, resolve the local
date from the optional request body (`timezone_offset`, default 0),
early-return on an existing check-in for `(task_id, today)`, otherwise
insert the record, update the streak fields, commit, and then run the
post-commit achievement and daily-complete checks, whose uncaught
exceptions fail the response.  `recId`, `achId`, `dailyId` are the fresh
uuids for the rows the call may create. -/
def checkin_task (db : DB) (task_id : String) (checkin_data : Option Int)
    (nowUtc serverToday : Int) (recId achId dailyId : String) :
    DB × Except ApiError TaskCard :=
  match scalarOneOrNone (db.tasks.filter fun t => t.id == task_id) with
  | Except.error e => (db, Except.error (ApiError.internal e))
  | Except.ok none =>
    (db, Except.error (ApiError.notFound
      ("Task with id " ++ task_id ++ " not found")))
  | Except.ok (some task) =>
    let timezone_offset := checkin_data.getD 0
    let today := get_local_date nowUtc timezone_offset
    match scalarOneOrNone (db.checkins.filter fun r =>
        r.task_id == task_id && r.checkin_date == today) with
    | Except.error e => (db, Except.error (ApiError.internal e))
    | Except.ok (some _) => (db, Except.ok task)
    | Except.ok none =>
      let record : CheckinRecord :=
        { id := recId, task_id := task_id, checkin_date := today,
          checkin_time := nowUtc }
      let new_streak :=
        calculate_streak task.last_checkin_date task.current_streak today
      let task1 : TaskCard :=
        { task with
          current_streak := new_streak,
          last_checkin_date := some today,
          longest_streak :=
            if new_streak > task.longest_streak then new_streak
            else task.longest_streak }
      let db1 : DB :=
        { db with
          tasks := replaceTask db.tasks task1,
          checkins := db.checkins ++ [record] }
      let p := check_streak_achievement db1 task_id new_streak task1.title
        nowUtc achId
      match check_daily_complete p.1 serverToday nowUtc dailyId with
      | Except.error e => (p.1, Except.error (ApiError.internal e))
      | Except.ok q => (q.1, Except.ok task1)

/-- The streak-field update the check-in commit applies to the task row
(the three assignments of `checkin_task`'s insert branch). -/
def applyCheckin (task : TaskCard) (today : Int) : TaskCard :=
  let new_streak :=
    calculate_streak task.last_checkin_date task.current_streak today
  { task with
    current_streak := new_streak,
    last_checkin_date := some today,
    longest_streak :=
      if new_streak > task.longest_streak then new_streak
      else task.longest_streak }

/-- The store state the check-in transaction commits atomically: the
inserted `CheckinRecord` plus the updated task row. -/
def commitCheckin (db : DB) (task : TaskCard) (tid : String)
    (today now : Int) (rid : String) : DB :=
  { db with
    tasks := replaceTask db.tasks (applyCheckin task today),
    checkins := db.checkins ++
      [{ id := rid, task_id := tid, checkin_date := today,
         checkin_time := now }] }

/-! ### Derived observations: row counts, invariants, call sequences -/

/-- Number of check-in records stored for `(task_id, checkin_date)`. -/
def checkinCount (db : DB) (tid : String) (d : Int) : Nat :=
  (db.checkins.filter fun r => r.task_id == tid && r.checkin_date == d).length

/-- Spec §3 key invariant: at most one `CheckinRecord` per task per
calendar date. -/
def checkinsUnique (db : DB) : Prop :=
  ∀ tid d, checkinCount db tid d ≤ 1

/-- The row predicate of `_check_existing_achievement`: an `achievement`
notification whose payload carries this `(habit_id, milestone)` pair. -/
def achievementMatches (hid : String) (m : Int) (n : Notification) : Bool :=
  n.type == "achievement" &&
    (match n.data with
     | some d => d.habit_id == some hid && d.milestone == some m
     | none => false)

/-- Number of stored achievement notifications for `(habit, milestone)`. -/
def achCount (db : DB) (hid : String) (m : Int) : Nat :=
  (db.notifications.filter (achievementMatches hid m)).length

/-- The row predicate of `_check_existing_at_risk`: a `habit_reminder`
notification of the current UTC day whose payload names this habit and
carries the at-risk marker. -/
def atRiskMatches (hid : String) (nowUtc : Int) (n : Notification) : Bool :=
  n.type == "habit_reminder" && inUtcDayWindow n.created_at nowUtc &&
    (match n.data with
     | some d => d.habit_id == some hid && d.at_risk == some true
     | none => false)

/-- Number of stored at-risk notifications for this habit in the current
UTC day. -/
def atRiskCount (db : DB) (hid : String) (nowUtc : Int) : Nat :=
  (db.notifications.filter (atRiskMatches hid nowUtc)).length

/-- Number of stored `daily_complete` notifications in the current UTC
day. -/
def dailyCount (db : DB) (nowUtc : Int) : Nat :=
  (db.notifications.filter fun n =>
    n.type == "daily_complete" && inUtcDayWindow n.created_at nowUtc).length

/-- Spec §3 invariant on one task row: `longest_streak >= current_streak`. -/
def streakInvariant (db : DB) : Prop :=
  ∀ t ∈ db.tasks, t.current_streak ≤ t.longest_streak

/-- Eligibility of a habit row for an at-risk warning exactly as the SQL
filter of `generate_at_risk_notifications` selects it. -/
def atRiskEligible (serverToday : Int) (t : TaskCard) : Bool :=
  t.is_habit && !t.is_deleted && decide (0 < t.current_streak) &&
    sqlDateNe t.last_checkin_date serverToday

/-- The arguments of one `POST /tasks/../checkin` request (task id,
optional body offset, clock readings, fresh row ids). -/
structure CheckinCall where
  task_id : String
  checkin_data : Option Int
  nowUtc : Int
  serverToday : Int
  recId : String
  achId : String
  dailyId : String
  deriving Repr, DecidableEq

/-- Run a sequence of check-in requests against the store, keeping the
store each request leaves behind. -/
def runCheckins (db : DB) : List CheckinCall → DB
  | [] => db
  | c :: cs =>
    runCheckins
      (checkin_task db c.task_id c.checkin_data c.nowUtc c.serverToday
        c.recId c.achId c.dailyId).1 cs

/-- The arguments of one `check_streak_achievement` invocation. -/
structure AchievementCall where
  habit_id : String
  streak : Int
  habit_title : String
  nowUtc : Int
  nid : String
  deriving Repr, DecidableEq

/-- Run a sequence of `check_streak_achievement` invocations. -/
def runAchievementChecks (db : DB) : List AchievementCall → DB
  | [] => db
  | c :: cs =>
    runAchievementChecks
      (check_streak_achievement db c.habit_id c.streak c.habit_title
        c.nowUtc c.nid).1 cs

/-- The column sets carrying a declared uniqueness constraint on the
`checkin_records` table in `app/models/checkin_record.py`: only the
primary key `id`.  The model declares no `UniqueConstraint` — in
particular none on `(task_id, checkin_date)`. -/
def checkinRecordUniqueColumnSets : List (List String) := [["id"]]

/-- `db'` extends `db` by appended notifications only: tasks and
check-in records untouched. -/
def ExtendsNotifs (db db' : DB) : Prop :=
  db'.tasks = db.tasks ∧ db'.checkins = db.checkins ∧
    ∃ l, db'.notifications = db.notifications ++ l

/-! ### Concrete rows and stores instantiating the theorems -/

/-- A concrete task row (title "T", no list, no reminder). -/
def mkTask (id : String) (is_habit : Bool) (cur long : Int)
    (last : Option Int) (deleted : Bool) : TaskCard :=
  { id := id, title := "T", content := "", list_id := none,
    is_habit := is_habit, reminder_time := none, current_streak := cur,
    longest_streak := long, last_checkin_date := last,
    is_deleted := deleted }

/-- A concrete check-in record row. -/
def mkRecord (id task_id : String) (d t : Int) : CheckinRecord :=
  { id := id, task_id := task_id, checkin_date := d, checkin_time := t }

/-- A concrete `daily_complete` notification row with empty payload. -/
def mkDailyNotif (id : String) (created : Int) : Notification :=
  { id := id, type := "daily_complete", title := "done", message := "",
    data := none, is_read := false, created_at := created,
    user_id := "default" }

/-- C1: the streak engine agrees with the four-branch table of §4.2 on
every input (absent date → 1; same date → unchanged; exactly one day's
gap → increment; any other gap, including gaps ≥ 2 days and future
last-check-in dates → 1).  As a total Lean function of exactly these
three arguments it is deterministic and side-effect-free and depends on
no other input. -/
theorem calculate_streak_matches_spec :
    ∀ (last : Option Int) (streak today : Int),
      calculate_streak last streak today = nextStreakSpec last streak today := by
  intro last streak today
  cases last with
  | none => rfl
  | some d =>
    simp only [calculate_streak, nextStreakSpec]

/-! ### Helper lemmas -/

theorem scalarOneOrNone_ok_none {α : Type} {l : List α}
    (h : scalarOneOrNone l = Except.ok none) : l = [] := by
  match l with
  | [] => rfl
  | [x] => simp [scalarOneOrNone] at h
  | x :: y :: rest => simp [scalarOneOrNone] at h

theorem scalarOneOrNone_ok_some {α : Type} {l : List α} {x : α}
    (h : scalarOneOrNone l = Except.ok (some x)) : l = [x] := by
  match l with
  | [] => simp [scalarOneOrNone] at h
  | [y] =>
    simp [scalarOneOrNone] at h
    rw [h]
  | y :: z :: rest => simp [scalarOneOrNone] at h

theorem scalarOneOrNone_error {α : Type} {l : List α} {e : String}
    (h : scalarOneOrNone l = Except.error e) : 2 ≤ l.length := by
  match l with
  | [] => simp [scalarOneOrNone] at h
  | [x] => simp [scalarOneOrNone] at h
  | x :: y :: rest => simp

theorem mem_replaceTask {l : List TaskCard} {u t : TaskCard}
    (h : t ∈ replaceTask l u) : t = u ∨ t ∈ l := by
  simp only [replaceTask, List.mem_map] at h
  obtain ⟨a, ha, hq⟩ := h
  by_cases hc : a.id == u.id
  · rw [if_pos hc] at hq
    exact Or.inl hq.symm
  · rw [if_neg hc] at hq
    exact Or.inr (hq ▸ ha)

theorem filter_replaceTask (l : List TaskCard) (u : TaskCard) :
    (replaceTask l u).filter (fun t => t.id == u.id) =
      (l.filter (fun t => t.id == u.id)).map (fun _ => u) := by
  induction l with
  | nil => rfl
  | cons a l ih =>
    simp only [replaceTask, List.map_cons] at ih ⊢
    by_cases hc : a.id == u.id
    · rw [if_pos hc]
      have hu : u.id == u.id := by simp
      simp only [List.filter_cons, hu, hc, ih]
      simp
    · rw [if_neg hc]
      simp only [List.filter_cons, hc, ih]
      simp

theorem applyCheckin_invariant (task : TaskCard) (today : Int) :
    (applyCheckin task today).current_streak ≤
      (applyCheckin task today).longest_streak := by
  simp only [applyCheckin]
  split
  · exact le_refl _
  · omega

theorem check_streak_achievement_extends (db : DB) (hid : String) (s : Int)
    (ti : String) (now : Int) (nid : String) :
    ExtendsNotifs db (check_streak_achievement db hid s ti now nid).1 := by
  unfold check_streak_achievement
  split
  · exact ⟨rfl, rfl, [], by simp⟩
  · split
    · exact ⟨rfl, rfl, [], by simp⟩
    · exact ⟨rfl, rfl, _, rfl⟩

theorem check_daily_complete_ok_extends {db : DB} {st now : Int}
    {nid : String} {q : DB × Option Notification}
    (h : check_daily_complete db st now nid = Except.ok q) :
    ExtendsNotifs db q.1 := by
  unfold check_daily_complete at h
  dsimp only at h
  repeat' split at h
  all_goals (try cases h)
  all_goals first
    | exact ⟨rfl, rfl, [], (List.append_nil _).symm⟩
    | exact ⟨rfl, rfl, _, rfl⟩

theorem checkin_task_not_found_eq (db : DB) (tid : String) (cd : Option Int)
    (now st : Int) (rid aid did : String)
    (hfind : db.tasks.filter (fun t => t.id == tid) = []) :
    checkin_task db tid cd now st rid aid did =
      (db, Except.error (ApiError.notFound
        ("Task with id " ++ tid ++ " not found"))) := by
  unfold checkin_task
  rw [hfind]
  rfl

theorem checkin_task_existing_eq (db : DB) (tid : String) (cd : Option Int)
    (now st : Int) (rid aid did : String) (task : TaskCard)
    (r : CheckinRecord)
    (hfind : db.tasks.filter (fun t => t.id == tid) = [task])
    (hone : db.checkins.filter (fun r => r.task_id == tid &&
      r.checkin_date == get_local_date now (cd.getD 0)) = [r]) :
    checkin_task db tid cd now st rid aid did = (db, Except.ok task) := by
  unfold checkin_task
  rw [hfind]
  dsimp only
  rw [hone]
  rfl

theorem checkin_task_insert_eq (db : DB) (tid : String) (cd : Option Int)
    (now st : Int) (rid aid did : String) (task : TaskCard)
    (hfind : db.tasks.filter (fun t => t.id == tid) = [task])
    (hnone : db.checkins.filter (fun r => r.task_id == tid &&
      r.checkin_date == get_local_date now (cd.getD 0)) = []) :
    checkin_task db tid cd now st rid aid did =
      (let today := get_local_date now (cd.getD 0)
       let db1 := commitCheckin db task tid today now rid
       let p := check_streak_achievement db1 tid
         (calculate_streak task.last_checkin_date task.current_streak today)
         task.title now aid
       match check_daily_complete p.1 st now did with
       | Except.error e => (p.1, Except.error (ApiError.internal e))
       | Except.ok q => (q.1, Except.ok (applyCheckin task today))) := by
  unfold checkin_task
  rw [hfind]
  dsimp only
  rw [hnone]
  rfl

theorem extendsNotifs_trans {a b c : DB} (h1 : ExtendsNotifs a b)
    (h2 : ExtendsNotifs b c) : ExtendsNotifs a c := by
  obtain ⟨t1, c1, l1, n1⟩ := h1
  obtain ⟨t2, c2, l2, n2⟩ := h2
  exact ⟨t2.trans t1, c2.trans c1, l1 ++ l2, by rw [n2, n1, List.append_assoc]⟩

/-- The store after any check-in request is either untouched, or the
atomically committed record-plus-streak-update state extended by
whatever notifications the post-commit checks appended. -/
theorem checkin_task_cases (db : DB) (tid : String) (cd : Option Int)
    (now st : Int) (rid aid did : String) :
    (checkin_task db tid cd now st rid aid did).1 = db ∨
    ∃ task, db.tasks.filter (fun t => t.id == tid) = [task] ∧
      db.checkins.filter (fun r => r.task_id == tid &&
        r.checkin_date == get_local_date now (cd.getD 0)) = [] ∧
      ExtendsNotifs
        (commitCheckin db task tid (get_local_date now (cd.getD 0)) now rid)
        (checkin_task db tid cd now st rid aid did).1 := by
  cases hA : scalarOneOrNone (db.tasks.filter fun t => t.id == tid) with
  | error e =>
    left
    unfold checkin_task
    rw [hA]
  | ok o =>
    cases o with
    | none =>
      left
      unfold checkin_task
      rw [hA]
    | some task =>
      have hfind := scalarOneOrNone_ok_some hA
      cases hB : scalarOneOrNone (db.checkins.filter fun r =>
          r.task_id == tid &&
            r.checkin_date == get_local_date now (cd.getD 0)) with
      | error e =>
        left
        unfold checkin_task
        rw [hfind]
        dsimp only
        rw [hB]
        rfl
      | ok ob =>
        cases ob with
        | some r =>
          left
          rw [checkin_task_existing_eq db tid cd now st rid aid did task r
            hfind (scalarOneOrNone_ok_some hB)]
        | none =>
          have hnone := scalarOneOrNone_ok_none hB
          right
          refine ⟨task, hfind, hnone, ?_⟩
          rw [checkin_task_insert_eq db tid cd now st rid aid did task
            hfind hnone]
          dsimp only
          have hach := check_streak_achievement_extends
            (commitCheckin db task tid (get_local_date now (cd.getD 0)) now rid)
            tid (calculate_streak task.last_checkin_date task.current_streak
              (get_local_date now (cd.getD 0))) task.title now aid
          cases hD : check_daily_complete
              (check_streak_achievement
                (commitCheckin db task tid (get_local_date now (cd.getD 0))
                  now rid)
                tid (calculate_streak task.last_checkin_date
                  task.current_streak (get_local_date now (cd.getD 0)))
                task.title now aid).1 st now did with
          | error e =>
            exact hach
          | ok q =>
            exact extendsNotifs_trans hach (check_daily_complete_ok_extends hD)

theorem length_filter_singleton_le {α : Type} (p : α → Bool) (x : α) :
    (List.filter p [x]).length ≤ 1 := by
  by_cases h : p x <;> simp [List.filter, h]

/-- One check-in request preserves the per-task streak invariant. -/
theorem checkin_step_streakInvariant (db : DB) (tid : String)
    (cd : Option Int) (now st : Int) (rid aid did : String)
    (hinv : streakInvariant db) :
    streakInvariant (checkin_task db tid cd now st rid aid did).1 := by
  rcases checkin_task_cases db tid cd now st rid aid did with
    heq | ⟨task, hfind, hnone, hext⟩
  · rw [heq]
    exact hinv
  · intro t ht
    rw [hext.1] at ht
    simp only [commitCheckin] at ht
    rcases mem_replaceTask ht with rfl | hmem
    · exact applyCheckin_invariant task _
    · exact hinv t hmem

/-- Any sequence of check-in requests preserves the streak invariant. -/
theorem runCheckins_streakInvariant (db : DB) (calls : List CheckinCall)
    (hinv : streakInvariant db) :
    streakInvariant (runCheckins db calls) := by
  induction calls generalizing db with
  | nil => exact hinv
  | cons c cs ih =>
    exact ih _ (checkin_step_streakInvariant db c.task_id c.checkin_data
      c.nowUtc c.serverToday c.recId c.achId c.dailyId hinv)

/-- One check-in request preserves at-most-one-record-per-(task, date). -/
theorem checkin_step_checkinsUnique (db : DB) (tid : String)
    (cd : Option Int) (now st : Int) (rid aid did : String)
    (h : checkinsUnique db) :
    checkinsUnique (checkin_task db tid cd now st rid aid did).1 := by
  rcases checkin_task_cases db tid cd now st rid aid did with
    heq | ⟨task, hfind, hnone, hext⟩
  · rw [heq]
    exact h
  · intro tid' d'
    unfold checkinCount
    rw [hext.2.1]
    simp only [commitCheckin, List.filter_append, List.length_append]
    by_cases h1 : tid = tid'
    · by_cases h2 : get_local_date now (cd.getD 0) = d'
      · subst h1
        subst h2
        rw [hnone]
        simp
      · have hb := h tid' d'
        unfold checkinCount at hb
        have hs : (List.filter
            (fun r : CheckinRecord => r.task_id == tid' && r.checkin_date == d')
            ([{ id := rid, task_id := tid,
                checkin_date := get_local_date now (cd.getD 0),
                checkin_time := now }] : List CheckinRecord)).length = 0 := by
          have hbeq : (get_local_date now (cd.getD 0) == d') = false :=
            beq_eq_false_iff_ne.mpr h2
          simp [List.filter, hbeq]
        omega
    · have hb := h tid' d'
      unfold checkinCount at hb
      have hs : (List.filter
          (fun r : CheckinRecord => r.task_id == tid' && r.checkin_date == d')
          ([{ id := rid, task_id := tid,
              checkin_date := get_local_date now (cd.getD 0),
              checkin_time := now }] : List CheckinRecord)).length = 0 := by
        have hbeq : (tid == tid') = false := beq_eq_false_iff_ne.mpr h1
        simp [List.filter, hbeq]
      omega

/-- Any sequence of check-in requests preserves
at-most-one-record-per-(task, date). -/
theorem runCheckins_checkinsUnique (db : DB) (calls : List CheckinCall)
    (h : checkinsUnique db) :
    checkinsUnique (runCheckins db calls) := by
  induction calls generalizing db with
  | nil => exact h
  | cons c cs ih =>
    exact ih _ (checkin_step_checkinsUnique db c.task_id c.checkin_data
      c.nowUtc c.serverToday c.recId c.achId c.dailyId h)

theorem eq_singleton_of_length_le_one {α : Type} {l : List α} {x : α}
    (h : l.length ≤ 1) (hx : x ∈ l) : l = [x] := by
  match l, hx with
  | [y], hx =>
    simp only [List.mem_singleton] at hx
    rw [hx]
  | y :: z :: r, _ => simp at h

theorem id_eq_of_filter_eq (l : List TaskCard) (tid : String)
    (task : TaskCard) (h : l.filter (fun t => t.id == tid) = [task]) :
    task.id = tid := by
  have hm : task ∈ l.filter (fun t => t.id == tid) := by
    rw [h]
    exact List.mem_singleton_self task
  rw [List.mem_filter] at hm
  exact beq_iff_eq.mp hm.2

/-- C2: (i) when a `CheckinRecord` for `(tid, today)` already exists, a
check-in request inserts nothing, mutates nothing and returns the task
unchanged; (ii) therefore a second check-in request on the same local
day returns exactly the state and response of the first.  The two
well-formedness hypotheses are the primary-key uniqueness of task ids
and the at-most-one-record-per-(task, date) invariant, both of which
hold in every reachable store. -/
theorem checkin_task_idempotent (db : DB) (tid : String) (cd : Option Int)
    (now st : Int) (rid aid did : String)
    (hT : (db.tasks.filter fun t => t.id == tid).length ≤ 1)
    (hC : (db.checkins.filter fun r => r.task_id == tid &&
      r.checkin_date == get_local_date now (cd.getD 0)).length ≤ 1) :
    (∀ task, db.tasks.filter (fun t => t.id == tid) = [task] →
      (∃ r ∈ db.checkins, r.task_id = tid ∧
        r.checkin_date = get_local_date now (cd.getD 0)) →
      checkin_task db tid cd now st rid aid did = (db, Except.ok task)) ∧
    (∀ db1 t1,
      checkin_task db tid cd now st rid aid did = (db1, Except.ok t1) →
      ∀ (cd2 : Option Int) (now2 st2 : Int) (rid2 aid2 did2 : String),
        get_local_date now2 (cd2.getD 0) = get_local_date now (cd.getD 0) →
        checkin_task db1 tid cd2 now2 st2 rid2 aid2 did2 =
          (db1, Except.ok t1)) := by
  constructor
  · intro task hfind hex
    obtain ⟨r, hr, hrt, hrd⟩ := hex
    have hmem : r ∈ db.checkins.filter (fun r => r.task_id == tid &&
        r.checkin_date == get_local_date now (cd.getD 0)) := by
      rw [List.mem_filter]
      refine ⟨hr, ?_⟩
      rw [hrt, hrd]
      simp
    have hsing := eq_singleton_of_length_le_one hC hmem
    exact checkin_task_existing_eq db tid cd now st rid aid did task r
      hfind hsing
  · intro db1 t1 h1 cd2 now2 st2 rid2 aid2 did2 hday
    cases hl : db.tasks.filter (fun t => t.id == tid) with
    | nil =>
      rw [checkin_task_not_found_eq db tid cd now st rid aid did hl] at h1
      simp at h1
    | cons task rest =>
      have hrest : rest = [] := by
        rw [hl] at hT
        cases rest with
        | nil => rfl
        | cons a b => simp at hT
      subst hrest
      have htid : task.id = tid := id_eq_of_filter_eq db.tasks tid task hl
      cases hc2 : db.checkins.filter (fun r => r.task_id == tid &&
          r.checkin_date == get_local_date now (cd.getD 0)) with
      | cons r rest2 =>
        have hrest2 : rest2 = [] := by
          rw [hc2] at hC
          cases rest2 with
          | nil => rfl
          | cons a b => simp at hC
        subst hrest2
        rw [checkin_task_existing_eq db tid cd now st rid aid did task r
          hl hc2] at h1
        have hdb : db = db1 := congrArg Prod.fst h1
        have hok : (Except.ok task : Except ApiError TaskCard) =
            Except.ok t1 := congrArg Prod.snd h1
        have ht1 : task = t1 := by
          cases hok
          rfl
        subst hdb
        subst ht1
        have hone2 : db.checkins.filter (fun r => r.task_id == tid &&
            r.checkin_date == get_local_date now2 (cd2.getD 0)) = [r] := by
          rw [hday]
          exact hc2
        exact checkin_task_existing_eq db tid cd2 now2 st2 rid2 aid2 did2
          task r hl hone2
      | nil =>
        rw [checkin_task_insert_eq db tid cd now st rid aid did task
          hl hc2] at h1
        dsimp only at h1
        have hach := check_streak_achievement_extends
          (commitCheckin db task tid (get_local_date now (cd.getD 0)) now rid)
          tid (calculate_streak task.last_checkin_date task.current_streak
            (get_local_date now (cd.getD 0))) task.title now aid
        cases hD : check_daily_complete
            (check_streak_achievement
              (commitCheckin db task tid (get_local_date now (cd.getD 0))
                now rid)
              tid (calculate_streak task.last_checkin_date
                task.current_streak (get_local_date now (cd.getD 0)))
              task.title now aid).1 st now did with
        | error e =>
          rw [hD] at h1
          simp at h1
        | ok q =>
          rw [hD] at h1
          have hdb1 : q.1 = db1 := congrArg Prod.fst h1
          have ht1 : Except.ok (applyCheckin task
              (get_local_date now (cd.getD 0))) = Except.ok t1 :=
            congrArg Prod.snd h1
          have ht1' : applyCheckin task (get_local_date now (cd.getD 0)) = t1 := by
            cases ht1
            rfl
          have hfull := extendsNotifs_trans hach
            (check_daily_complete_ok_extends hD)
          have htasks : db1.tasks = replaceTask db.tasks
              (applyCheckin task (get_local_date now (cd.getD 0))) := by
            rw [← hdb1]
            exact hfull.1
          have hcheckins : db1.checkins = db.checkins ++
              [{ id := rid, task_id := tid,
                 checkin_date := get_local_date now (cd.getD 0),
                 checkin_time := now }] := by
            rw [← hdb1]
            exact hfull.2.1
          have hid1 : (applyCheckin task
              (get_local_date now (cd.getD 0))).id = tid := htid
          have hfind2 : db1.tasks.filter (fun t => t.id == tid) =
              [applyCheckin task (get_local_date now (cd.getD 0))] := by
            rw [htasks, ← hid1, filter_replaceTask, hid1, hl]
            rfl
          have hone2 : db1.checkins.filter (fun r => r.task_id == tid &&
              r.checkin_date == get_local_date now2 (cd2.getD 0)) =
              [{ id := rid, task_id := tid,
                 checkin_date := get_local_date now (cd.getD 0),
                 checkin_time := now }] := by
            rw [hday, hcheckins, List.filter_append, hc2]
            simp
          rw [← ht1']
          exact checkin_task_existing_eq db1 tid cd2 now2 st2 rid2 aid2 did2
            (applyCheckin task (get_local_date now (cd.getD 0))) _ hfind2 hone2

/-- Witness for C2: a concrete store holding a task and a record for the
current local day; the check-in request leaves the store untouched and
returns the stored task. -/
theorem checkin_task_idempotent_witness :
    checkin_task
      { tasks := [mkTask "t1" true 4 6 (some 0) false],
        checkins := [mkRecord "r1" "t1" 0 30],
        notifications := [] } "t1" none 60 0 "r2" "a2" "d2" =
    ({ tasks := [mkTask "t1" true 4 6 (some 0) false],
       checkins := [mkRecord "r1" "t1" 0 30],
       notifications := [] },
     Except.ok (mkTask "t1" true 4 6 (some 0) false)) :=
  (checkin_task_idempotent _ "t1" none 60 0 "r2" "a2" "d2"
      (by decide) (by decide)).1
    (mkTask "t1" true 4 6 (some 0) false) (by decide)
    ⟨mkRecord "r1" "t1" 0 30, by decide, by decide, by decide⟩

/-- C3: from any store satisfying `longestStreak ≥ currentStreak` on
every task (in particular a freshly created task, whose two fields are
both 0), the invariant still holds after any sequence of check-in
requests; moreover the committed streak update sets `longest_streak` to
the new streak exactly whenever the new streak exceeds the stored
longest. -/
theorem checkin_streak_invariant (db : DB) (calls : List CheckinCall)
    (hinv : streakInvariant db) :
    streakInvariant (runCheckins db calls) ∧
    (∀ (task : TaskCard) (today : Int),
      task.longest_streak < (applyCheckin task today).current_streak →
      (applyCheckin task today).longest_streak =
        (applyCheckin task today).current_streak) := by
  refine ⟨runCheckins_streakInvariant db calls hinv, ?_⟩
  intro task today h
  simp only [applyCheckin] at h ⊢
  split
  · rfl
  · omega

/-- Witness for C3: a fresh habit task (streaks 0/0) receiving one
check-in request. -/
theorem checkin_streak_invariant_witness :
    streakInvariant (runCheckins
      { tasks := [mkTask "h1" true 0 0 none false], checkins := [],
        notifications := [] }
      [⟨"h1", none, 0, 0, "r1", "a1", "d1"⟩]) :=
  (checkin_streak_invariant
    { tasks := [mkTask "h1" true 0 0 none false], checkins := [],
      notifications := [] }
    [⟨"h1", none, 0, 0, "r1", "a1", "d1"⟩]
    (by unfold streakInvariant; decide)).1

/-- C7 counterexample: the claim says the store enforces a uniqueness
constraint on `(taskId, checkinDate)`; the `checkin_records` model
declares unique column sets only for the primary key `id`, so no such
constraint exists. -/
theorem checkin_unique_constraint_counterexample :
    ¬ ["task_id", "checkin_date"] ∈ checkinRecordUniqueColumnSets := by
  decide

/-- C7 (amended): at most one `CheckinRecord` per `(task, date)` is
preserved by every sequence of check-in requests — enforced by the
pre-insert existence check, not by a schema constraint: the table
declares no uniqueness constraint on `(task_id, checkin_date)`. -/
theorem checkin_at_most_one_per_day (db : DB) (calls : List CheckinCall)
    (h : checkinsUnique db) :
    checkinsUnique (runCheckins db calls) ∧
    ¬ ["task_id", "checkin_date"] ∈ checkinRecordUniqueColumnSets :=
  ⟨runCheckins_checkinsUnique db calls h, by decide⟩

/-- Witness for C7's amended statement: an empty store taking two
check-in requests for the same task. -/
theorem checkin_at_most_one_per_day_witness :
    checkinsUnique (runCheckins
      { tasks := [mkTask "h1" true 0 0 none false], checkins := [],
        notifications := [] }
      [⟨"h1", none, 0, 0, "r1", "a1", "d1"⟩,
       ⟨"h1", none, 30, 0, "r2", "a2", "d2"⟩]) :=
  (checkin_at_most_one_per_day
    { tasks := [mkTask "h1" true 0 0 none false], checkins := [],
      notifications := [] }
    [⟨"h1", none, 0, 0, "r1", "a1", "d1"⟩,
     ⟨"h1", none, 30, 0, "r2", "a2", "d2"⟩]
    (fun tid d => by simp [checkinCount])).1

theorem check_existing_achievement_iff (db : DB) (hid : String) (m : Int) :
    check_existing_achievement db hid m = true ↔
      ∃ n ∈ db.notifications, n.type = "achievement" ∧
        ∃ d, n.data = some d ∧ d.habit_id = some hid ∧
          d.milestone = some m := by
  unfold check_existing_achievement
  rw [List.any_eq_true]
  constructor
  · rintro ⟨n, hn, hp⟩
    refine ⟨n, hn, ?_⟩
    cases hd : n.data with
    | none =>
      rw [hd] at hp
      simp at hp
    | some d =>
      rw [hd] at hp
      simp only [Bool.and_eq_true, beq_iff_eq] at hp
      exact ⟨hp.1, d, rfl, hp.2.1, hp.2.2⟩
  · rintro ⟨n, hn, hty, d, hd, h1, h2⟩
    refine ⟨n, hn, ?_⟩
    rw [hd]
    simp [hty, h1, h2]

theorem achCount_eq_zero_of_not_existing (db : DB) (hid : String) (m : Int)
    (h : check_existing_achievement db hid m = false) :
    achCount db hid m = 0 := by
  unfold check_existing_achievement at h
  unfold achCount
  rw [List.length_eq_zero, List.filter_eq_nil_iff]
  intro n hn
  have hfalse := (List.any_eq_false.mp h) n hn
  simpa [achievementMatches] using hfalse

/-- One `check_streak_achievement` invocation (for any habit and streak)
preserves at-most-one-achievement-per-(habit, milestone). -/
theorem achievement_step_achCount (db : DB) (hid' : String) (s : Int)
    (title : String) (now : Int) (nid : String) (hid : String) (m : Int)
    (h : achCount db hid m ≤ 1) :
    achCount (check_streak_achievement db hid' s title now nid).1 hid m ≤ 1 := by
  unfold check_streak_achievement
  split
  · exact h
  · split
    · exact h
    · rename_i hcontains hexisting
      have happ : achCount (create_notification db "achievement"
          "🎉 成就解锁！"
          ("恭喜！「" ++ title ++ "」已连续打卡 " ++ toString s ++ " 天！")
          (some (achievementPayload hid' title s)) now nid).1 hid m =
          achCount db hid m +
            (List.filter (achievementMatches hid m)
              [{ id := nid, type := "achievement", title := "🎉 成就解锁！",
                 message := "恭喜！「" ++ title ++ "」已连续打卡 " ++
                   toString s ++ " 天！",
                 data := some (achievementPayload hid' title s),
                 is_read := false, created_at := now,
                 user_id := "default" }]).length := by
        unfold achCount create_notification
        rw [List.filter_append, List.length_append]
      rw [happ]
      by_cases hmatch : hid' = hid ∧ s = m
      · obtain ⟨rfl, rfl⟩ := hmatch
        have hzero : achCount db hid' s = 0 :=
          achCount_eq_zero_of_not_existing db hid' s
            (Bool.of_not_eq_true hexisting)
        rw [hzero]
        have : (List.filter (achievementMatches hid' s)
            [{ id := nid, type := "achievement", title := "🎉 成就解锁！",
               message := "恭喜！「" ++ title ++ "」已连续打卡 " ++
                 toString s ++ " 天！",
               data := some (achievementPayload hid' title s),
               is_read := false, created_at := now,
               user_id := "default" }]).length ≤ 1 :=
          length_filter_singleton_le _ _
        omega
      · have hfalse : achievementMatches hid m
            { id := nid, type := "achievement", title := "🎉 成就解锁！",
              message := "恭喜！「" ++ title ++ "」已连续打卡 " ++
                toString s ++ " 天！",
              data := some (achievementPayload hid' title s),
              is_read := false, created_at := now,
              user_id := "default" } = false := by
          apply Bool.eq_false_iff.mpr
          intro htrue
          simp only [achievementMatches, achievementPayload,
            Bool.and_eq_true, beq_iff_eq] at htrue
          exact hmatch ⟨Option.some_injective _ htrue.2.1,
            Option.some_injective _ htrue.2.2⟩
        rw [List.filter_cons, hfalse]
        simpa using h

/-- Any sequence of `check_streak_achievement` invocations preserves
at-most-one-achievement-per-(habit, milestone). -/
theorem runAchievementChecks_achCount (db : DB) (calls : List AchievementCall)
    (hid : String) (m : Int) (h : achCount db hid m ≤ 1) :
    achCount (runAchievementChecks db calls) hid m ≤ 1 := by
  induction calls generalizing db with
  | nil => exact h
  | cons c cs ih =>
    exact ih _ (achievement_step_achCount db c.habit_id c.streak
      c.habit_title c.nowUtc c.nid hid m h)

/-- C4: `check_streak_achievement` creates a notification iff the streak
is one of the milestones {7, 14, 30, 60, 100} and no achievement
notification with this `(habitId, milestone)` payload exists; the
created row is an `achievement` carrying
{habit_id, habit_title, streak, milestone}; non-milestone streaks are
exact no-ops; and — the dedup being keyed purely by
`(habitId, milestone)` with no date condition — any number of
invocations leaves at most one achievement notification per
`(habit, milestone)` in a store that started with at most one. -/
theorem check_streak_achievement_dedup (db : DB) (hid : String) (m : Int)
    (calls : List AchievementCall) (hle : achCount db hid m ≤ 1) :
    (∀ (s : Int) (title nid : String) (now : Int),
      (check_streak_achievement db hid s title now nid).2 ≠ none ↔
        (s ∈ ACHIEVEMENT_MILESTONES ∧
          ¬ ∃ n ∈ db.notifications, n.type = "achievement" ∧
            ∃ d, n.data = some d ∧ d.habit_id = some hid ∧
              d.milestone = some s)) ∧
    (∀ (s : Int) (title nid : String) (now : Int) (n : Notification),
      (check_streak_achievement db hid s title now nid).2 = some n →
      n.type = "achievement" ∧
        n.data = some (achievementPayload hid title s)) ∧
    (∀ (s : Int) (title nid : String) (now : Int),
      s ∉ ACHIEVEMENT_MILESTONES →
      check_streak_achievement db hid s title now nid = (db, none)) ∧
    achCount (runAchievementChecks db calls) hid m ≤ 1 := by
  refine ⟨?_, ?_, ?_, runAchievementChecks_achCount db calls hid m hle⟩
  · intro s title nid now
    unfold check_streak_achievement
    by_cases hcont : ACHIEVEMENT_MILESTONES.contains s = true
    · rw [if_neg (by rw [hcont]; simp)]
      by_cases hex : check_existing_achievement db hid s = true
      · rw [if_pos hex]
        constructor
        · intro hne
          exact absurd rfl hne
        · rintro ⟨hmem, hnotex⟩
          exact absurd ((check_existing_achievement_iff db hid s).mp hex)
            hnotex
      · rw [if_neg hex]
        constructor
        · intro _
          refine ⟨List.mem_of_elem_eq_true hcont, ?_⟩
          intro hex2
          exact hex ((check_existing_achievement_iff db hid s).mpr hex2)
        · intro _
          simp
    · rw [if_pos (by rw [Bool.eq_false_iff.mpr hcont]; rfl)]
      constructor
      · intro hne
        exact absurd rfl hne
      · rintro ⟨hmem, -⟩
        exact absurd (List.elem_eq_true_of_mem hmem) hcont
  · intro s title nid now n hsome
    unfold check_streak_achievement at hsome
    split at hsome
    · simp at hsome
    · split at hsome
      · simp at hsome
      · cases hsome
        exact ⟨rfl, rfl⟩
  · intro s title nid now hnot
    have hc : ACHIEVEMENT_MILESTONES.contains s = false :=
      Bool.eq_false_iff.mpr fun hcont =>
        hnot (List.mem_of_elem_eq_true hcont)
    unfold check_streak_achievement
    rw [if_pos (by rw [hc]; rfl)]

/-- Witness for C4: from an empty store, two invocations at milestone 7
for the same habit (on different days) leave at most one matching
achievement notification. -/
theorem check_streak_achievement_dedup_witness :
    achCount (runAchievementChecks
      { tasks := [], checkins := [], notifications := [] }
      [⟨"h1", 7, "T", 0, "a1"⟩, ⟨"h1", 7, "T", 2000, "a2"⟩]) "h1" 7 ≤ 1 :=
  (check_streak_achievement_dedup
    { tasks := [], checkins := [], notifications := [] } "h1" 7
    [⟨"h1", 7, "T", 0, "a1"⟩, ⟨"h1", 7, "T", 2000, "a2"⟩]
    (by decide)).2.2.2

theorem inUtcDayWindow_iff (created now : Int) :
    inUtcDayWindow created now = true ↔ created / 1440 = now / 1440 := by
  unfold inUtcDayWindow startOfUtcDay
  simp only [Bool.and_eq_true, decide_eq_true_eq]
  omega

theorem check_existing_at_risk_iff (db : DB) (hid : String) (t now : Int) :
    check_existing_at_risk db hid t now = true ↔
      ∃ n ∈ db.notifications, n.type = "habit_reminder" ∧
        n.created_at / 1440 = now / 1440 ∧
        ∃ d, n.data = some d ∧ d.habit_id = some hid ∧
          d.at_risk = some true := by
  unfold check_existing_at_risk
  rw [List.any_eq_true]
  constructor
  · rintro ⟨n, hn, hp⟩
    cases hd : n.data with
    | none =>
      rw [hd] at hp
      simp at hp
    | some d =>
      rw [hd] at hp
      simp only [Bool.and_eq_true, beq_iff_eq] at hp
      exact ⟨n, hn, hp.1.1, (inUtcDayWindow_iff _ _).mp hp.1.2, d, hd,
        hp.2.1, hp.2.2⟩
  · rintro ⟨n, hn, hty, hday, d, hd, h1, h2⟩
    refine ⟨n, hn, ?_⟩
    rw [hd]
    simp only [Bool.and_eq_true, beq_iff_eq]
    exact ⟨⟨hty, (inUtcDayWindow_iff _ _).mpr hday⟩, h1, h2⟩

theorem check_existing_reminder_iff (db : DB) (hid : String) (t now : Int) :
    check_existing_reminder db hid t now = true ↔
      ∃ n ∈ db.notifications, n.type = "habit_reminder" ∧
        n.created_at / 1440 = now / 1440 ∧
        ∃ d, n.data = some d ∧ d.habit_id = some hid ∧
          d.at_risk ≠ some true := by
  unfold check_existing_reminder
  rw [List.any_eq_true]
  constructor
  · rintro ⟨n, hn, hp⟩
    cases hd : n.data with
    | none =>
      rw [hd] at hp
      simp at hp
    | some d =>
      rw [hd] at hp
      simp only [Bool.and_eq_true, beq_iff_eq] at hp
      refine ⟨n, hn, hp.1.1, (inUtcDayWindow_iff _ _).mp hp.1.2, d, hd,
        hp.2.1, ?_⟩
      intro hat
      have hp22 := hp.2.2
      rw [hat] at hp22
      simp at hp22
  · rintro ⟨n, hn, hty, hday, d, hd, h1, h2⟩
    refine ⟨n, hn, ?_⟩
    rw [hd]
    simp only [Bool.and_eq_true, beq_iff_eq]
    refine ⟨⟨hty, (inUtcDayWindow_iff _ _).mpr hday⟩, h1, ?_⟩
    rw [beq_eq_false_iff_ne.mpr h2]
    rfl

theorem check_existing_daily_complete_ok_false_iff (db : DB) (t now : Int) :
    check_existing_daily_complete db t now = Except.ok false ↔
      ¬ ∃ n ∈ db.notifications, n.type = "daily_complete" ∧
        n.created_at / 1440 = now / 1440 := by
  have hpred : ∀ n : Notification,
      (n.type == "daily_complete" && inUtcDayWindow n.created_at now) =
        true ↔
      (n.type = "daily_complete" ∧ n.created_at / 1440 = now / 1440) := by
    intro n
    simp only [Bool.and_eq_true, beq_iff_eq]
    exact and_congr Iff.rfl (inUtcDayWindow_iff _ _)
  unfold check_existing_daily_complete
  rcases hl : db.notifications.filter (fun n =>
      n.type == "daily_complete" && inUtcDayWindow n.created_at now) with
    _ | ⟨a, _ | ⟨b, l2⟩⟩
  · rw [hl]
    refine iff_of_true rfl ?_
    rintro ⟨n, hn, hty, hday⟩
    have hmem : n ∈ db.notifications.filter (fun n =>
        n.type == "daily_complete" && inUtcDayWindow n.created_at now) :=
      List.mem_filter.mpr ⟨hn, (hpred n).mpr ⟨hty, hday⟩⟩
    rw [hl] at hmem
    simp at hmem
  · have hmem : a ∈ db.notifications.filter (fun n =>
        n.type == "daily_complete" && inUtcDayWindow n.created_at now) := by
      rw [hl]
      exact List.mem_singleton_self a
    have hfa := List.mem_filter.mp hmem
    rw [hl]
    refine iff_of_false (by simp [scalarOneOrNone]) ?_
    intro hnex
    exact hnex ⟨a, hfa.1, ((hpred a).mp hfa.2).1, ((hpred a).mp hfa.2).2⟩
  · have hmem : a ∈ db.notifications.filter (fun n =>
        n.type == "daily_complete" && inUtcDayWindow n.created_at now) := by
      rw [hl]
      exact List.mem_cons_self a _
    have hfa := List.mem_filter.mp hmem
    rw [hl]
    refine iff_of_false (by simp [scalarOneOrNone]) ?_
    intro hnex
    exact hnex ⟨a, hfa.1, ((hpred a).mp hfa.2).1, ((hpred a).mp hfa.2).2⟩

/-- C9: the dedup windows of the reminder, at-risk and daily-complete
existence checks are the UTC calendar day [00:00, 24:00) of the current
server instant: the window test holds exactly when the stored creation
timestamp has the same UTC calendar day as the server instant; the
checks ignore their client-local `today` argument entirely; and an
existing matching notification suppresses a new one exactly when its
creation timestamp falls inside the current UTC day. -/
theorem dedup_windows_are_utc_days :
    (∀ created now : Int,
      inUtcDayWindow created now = true ↔ created / 1440 = now / 1440) ∧
    (∀ (db : DB) (hid : String) (t1 t2 now : Int),
      check_existing_reminder db hid t1 now =
        check_existing_reminder db hid t2 now) ∧
    (∀ (db : DB) (hid : String) (t1 t2 now : Int),
      check_existing_at_risk db hid t1 now =
        check_existing_at_risk db hid t2 now) ∧
    (∀ (db : DB) (t1 t2 now : Int),
      check_existing_daily_complete db t1 now =
        check_existing_daily_complete db t2 now) ∧
    (∀ (db : DB) (hid : String) (t now : Int),
      check_existing_at_risk db hid t now = true ↔
        ∃ n ∈ db.notifications, n.type = "habit_reminder" ∧
          n.created_at / 1440 = now / 1440 ∧
          ∃ d, n.data = some d ∧ d.habit_id = some hid ∧
            d.at_risk = some true) ∧
    (∀ (db : DB) (hid : String) (t now : Int),
      check_existing_reminder db hid t now = true ↔
        ∃ n ∈ db.notifications, n.type = "habit_reminder" ∧
          n.created_at / 1440 = now / 1440 ∧
          ∃ d, n.data = some d ∧ d.habit_id = some hid ∧
            d.at_risk ≠ some true) ∧
    (∀ (db : DB) (t now : Int),
      check_existing_daily_complete db t now = Except.ok false ↔
        ¬ ∃ n ∈ db.notifications, n.type = "daily_complete" ∧
          n.created_at / 1440 = now / 1440) :=
  ⟨inUtcDayWindow_iff, fun _ _ _ _ _ => rfl, fun _ _ _ _ _ => rfl,
    fun _ _ _ _ => rfl, check_existing_at_risk_iff,
    check_existing_reminder_iff, check_existing_daily_complete_ok_false_iff⟩

/-- C6: `check_daily_complete` creates a notification iff there is at
least one active habit, every active habit's `last_checkin_date` equals
today (the server's local date), and no `daily_complete` notification
exists in the current UTC day; with zero active habits or any
not-checked-in active habit it is an exact no-op; and what it creates is
a `daily_complete` notification with payload {completedCount, date}
appended to the store. -/
theorem check_daily_complete_spec (db : DB) (st now : Int) (nid : String) :
    ((∃ db1 n, check_daily_complete db st now nid =
        Except.ok (db1, some n)) ↔
      ((db.tasks.filter fun t => t.is_habit && !t.is_deleted) ≠ [] ∧
        (∀ h ∈ db.tasks.filter fun t => t.is_habit && !t.is_deleted,
          h.last_checkin_date = some st) ∧
        ¬ ∃ n ∈ db.notifications, n.type = "daily_complete" ∧
          n.created_at / 1440 = now / 1440)) ∧
    ((db.tasks.filter fun t => t.is_habit && !t.is_deleted) = [] ∨
      (∃ h ∈ db.tasks.filter (fun t => t.is_habit && !t.is_deleted),
        h.last_checkin_date ≠ some st) →
      check_daily_complete db st now nid = Except.ok (db, none)) ∧
    (∀ db1 n, check_daily_complete db st now nid =
        Except.ok (db1, some n) →
      n.type = "daily_complete" ∧
        n.data = some (dailyCompletePayload
          (db.tasks.filter fun t => t.is_habit && !t.is_deleted).length
          st) ∧
        db1 = { db with notifications := db.notifications ++ [n] }) := by
  by_cases hemp :
      (db.tasks.filter fun t => t.is_habit && !t.is_deleted).isEmpty = true
  · have hnil : (db.tasks.filter fun t => t.is_habit && !t.is_deleted) = [] :=
      List.isEmpty_iff.mp hemp
    have heq : check_daily_complete db st now nid = Except.ok (db, none) := by
      unfold check_daily_complete
      rw [if_pos hemp]
    refine ⟨?_, fun _ => heq, ?_⟩
    · rw [heq]
      constructor
      · rintro ⟨db1, n, hcontra⟩
        simp at hcontra
      · rintro ⟨hne, -, -⟩
        exact absurd hnil hne
    · intro db1 n h
      rw [heq] at h
      simp at h
  · by_cases hall : ((db.tasks.filter
        fun t => t.is_habit && !t.is_deleted).all
        fun h => h.last_checkin_date == some st) = true
    · cases hce : check_existing_daily_complete db st now with
      | error e =>
        have heq : check_daily_complete db st now nid = Except.error e := by
          unfold check_daily_complete
          rw [if_neg hemp, if_neg (by rw [hall]; simp), hce]
        have hex : ∃ n ∈ db.notifications, n.type = "daily_complete" ∧
            n.created_at / 1440 = now / 1440 := by
          by_contra hnex
          rw [(check_existing_daily_complete_ok_false_iff db st now).mpr
            hnex] at hce
          simp at hce
        refine ⟨?_, ?_, ?_⟩
        · rw [heq]
          constructor
          · rintro ⟨db1, n, hcontra⟩
            simp at hcontra
          · rintro ⟨-, -, hnex⟩
            exact absurd hex hnex
        · rintro (hn | ⟨h, hmem, hne⟩)
          · exact absurd (List.isEmpty_iff.mpr hn) hemp
          · exact absurd (beq_iff_eq.mp (List.all_eq_true.mp hall h hmem)) hne
        · intro db1 n h
          rw [heq] at h
          simp at h
      | ok b =>
        cases b with
        | true =>
          have heq : check_daily_complete db st now nid =
              Except.ok (db, none) := by
            unfold check_daily_complete
            rw [if_neg hemp, if_neg (by rw [hall]; simp), hce]
          have hex : ∃ n ∈ db.notifications, n.type = "daily_complete" ∧
              n.created_at / 1440 = now / 1440 := by
            by_contra hnex
            rw [(check_existing_daily_complete_ok_false_iff db st now).mpr
              hnex] at hce
            simp at hce
          refine ⟨?_, fun _ => heq, ?_⟩
          · rw [heq]
            constructor
            · rintro ⟨db1, n, hcontra⟩
              simp at hcontra
            · rintro ⟨-, -, hnex⟩
              exact absurd hex hnex
          · intro db1 n h
            rw [heq] at h
            simp at h
        | false =>
          have heq : check_daily_complete db st now nid = Except.ok
              ({ db with notifications := db.notifications ++
                 [{ id := nid, type := "daily_complete",
                    title := "🌟 今日习惯全部完成！",
                    message := "太棒了！你已完成今天的所有 " ++
                      toString (db.tasks.filter fun t =>
                        t.is_habit && !t.is_deleted).length ++ " 个习惯！",
                    data := some (dailyCompletePayload
                      (db.tasks.filter fun t =>
                        t.is_habit && !t.is_deleted).length st),
                    is_read := false, created_at := now,
                    user_id := "default" }] },
               some { id := nid, type := "daily_complete",
                      title := "🌟 今日习惯全部完成！",
                      message := "太棒了！你已完成今天的所有 " ++
                        toString (db.tasks.filter fun t =>
                          t.is_habit && !t.is_deleted).length ++ " 个习惯！",
                      data := some (dailyCompletePayload
                        (db.tasks.filter fun t =>
                          t.is_habit && !t.is_deleted).length st),
                      is_read := false, created_at := now,
                      user_id := "default" }) := by
            unfold check_daily_complete
            rw [if_neg hemp, if_neg (by rw [hall]; simp), hce]
            rfl
          refine ⟨?_, ?_, ?_⟩
          · refine iff_of_true ⟨_, _, heq⟩ ?_
            refine ⟨fun hn => absurd (List.isEmpty_iff.mpr hn) hemp, ?_, ?_⟩
            · intro h hmem
              exact beq_iff_eq.mp (List.all_eq_true.mp hall h hmem)
            · exact (check_existing_daily_complete_ok_false_iff
                db st now).mp hce
          · rintro (hn | ⟨h, hmem, hne⟩)
            · exact absurd (List.isEmpty_iff.mpr hn) hemp
            · exact absurd (beq_iff_eq.mp
                (List.all_eq_true.mp hall h hmem)) hne
          · intro db1 n h
            rw [heq] at h
            simp only [Except.ok.injEq, Prod.mk.injEq] at h
            obtain ⟨hdb1, hn⟩ := h
            obtain ⟨rfl⟩ : n = _ := by
              cases hn
              rfl
            exact ⟨rfl, rfl, hdb1.symm⟩
    · have heq : check_daily_complete db st now nid =
          Except.ok (db, none) := by
        unfold check_daily_complete
        rw [if_neg hemp,
          if_pos (by rw [Bool.eq_false_iff.mpr hall]; rfl)]
      obtain ⟨h, hmem, hp⟩ := List.all_eq_false.mp
        (Bool.eq_false_iff.mpr hall)
      have hne : h.last_checkin_date ≠ some st := by
        intro hc
        rw [hc] at hp
        simp at hp
      refine ⟨?_, fun _ => heq, ?_⟩
      · rw [heq]
        constructor
        · rintro ⟨db1, n, hcontra⟩
          simp at hcontra
        · rintro ⟨-, hforall, -⟩
          exact absurd (hforall h hmem) hne
      · intro db1 n h
        rw [heq] at h
        simp at h

/-- Witness for C9 at concrete instants: minute 720 lies in the same UTC
day as minute 100, so the dedup window test holds there. -/
theorem dedup_windows_are_utc_days_witness :
    inUtcDayWindow 720 100 = true :=
  (dedup_windows_are_utc_days.1 720 100).mpr (by decide)

/-- Witness for C6: one completed and one uncompleted active habit — the
uncompleted habit suppresses the daily-complete notification. -/
theorem check_daily_complete_spec_witness :
    check_daily_complete
      { tasks := [mkTask "h1" true 1 1 (some 5) false,
                  mkTask "h2" true 0 0 none false],
        checkins := [], notifications := [] } 5 720 "d1" =
      Except.ok ({ tasks := [mkTask "h1" true 1 1 (some 5) false,
                             mkTask "h2" true 0 0 none false],
                   checkins := [], notifications := [] }, none) :=
  (check_daily_complete_spec _ 5 720 "d1").2.1
    (Or.inr ⟨mkTask "h2" true 0 0 none false, by decide, by decide⟩)

theorem inUtcDayWindow_self (now : Int) : inUtcDayWindow now now = true := by
  unfold inUtcDayWindow startOfUtcDay
  simp only [Bool.and_eq_true, decide_eq_true_eq]
  omega

theorem check_existing_at_risk_count (db : DB) (hid : String) (t now : Int) :
    check_existing_at_risk db hid t now = true ↔
      atRiskCount db hid now ≠ 0 := by
  unfold check_existing_at_risk atRiskCount
  rw [List.any_eq_true]
  constructor
  · rintro ⟨n, hn, hp⟩
    have hm : n ∈ db.notifications.filter (atRiskMatches hid now) :=
      List.mem_filter.mpr ⟨hn, hp⟩
    intro hz
    rw [List.length_eq_zero] at hz
    rw [hz] at hm
    simp at hm
  · intro hz
    have hne : db.notifications.filter (atRiskMatches hid now) ≠ [] := by
      intro hc
      rw [hc] at hz
      simp at hz
    obtain ⟨n, hn⟩ := List.exists_mem_of_ne_nil _ hne
    have hm := List.mem_filter.mp hn
    exact ⟨n, hm.1, hm.2⟩

theorem atRiskMatches_created (h : TaskCard) (hid : String) (now : Int)
    (nid title msg : String) :
    atRiskMatches hid now
      { id := nid, type := "habit_reminder", title := title,
        message := msg, data := some (atRiskPayload h), is_read := false,
        created_at := now, user_id := "default" } = (h.id == hid) := by
  unfold atRiskMatches atRiskPayload
  simp [inUtcDayWindow_self]

theorem atRiskCount_append_one (db : DB) (n : Notification) (hid : String)
    (now : Int) :
    atRiskCount { db with notifications := db.notifications ++ [n] }
        hid now =
      atRiskCount db hid now +
        (if atRiskMatches hid now n then 1 else 0) := by
  unfold atRiskCount
  rw [List.filter_append, List.length_append]
  by_cases hm : atRiskMatches hid now n = true
  · rw [if_pos hm]
    simp [List.filter, hm]
  · rw [if_neg hm]
    simp [List.filter, Bool.eq_false_iff.mpr hm]

theorem exists_id_cons_iff (h : TaskCard) (rest : List TaskCard)
    (hid : String) (hhid : h.id ≠ hid) :
    (∃ x ∈ rest, x.id = hid) ↔ (∃ x ∈ h :: rest, x.id = hid) := by
  constructor
  · rintro ⟨x, hx, hxid⟩
    exact ⟨x, List.mem_cons_of_mem h hx, hxid⟩
  · rintro ⟨x, hx, hxid⟩
    rcases List.mem_cons.mp hx with rfl | hm
    · exact absurd hxid hhid
    · exact ⟨x, hm, hxid⟩

/-- How one pass of the at-risk loop changes the per-habit count of
at-risk notifications in the current UTC day: a habit id listed in the
batch ends with count 1 if it started at 0, and every count is otherwise
unchanged. -/
theorem generateAtRiskLoop_count (today now : Int)
    (habits : List TaskCard) (db : DB) (seed : Nat) (hid : String) :
    atRiskCount (generateAtRiskLoop db today now seed habits).1 hid now =
      if atRiskCount db hid now = 0 ∧ ∃ h ∈ habits, h.id = hid then 1
      else atRiskCount db hid now := by
  induction habits generalizing db seed with
  | nil =>
    simp [generateAtRiskLoop]
  | cons h rest ih =>
    unfold generateAtRiskLoop
    by_cases hex : check_existing_at_risk db h.id today now = true
    · rw [if_pos hex, ih db seed]
      by_cases hhid : h.id = hid
      · have hne : atRiskCount db hid now ≠ 0 := by
          rw [← hhid]
          exact (check_existing_at_risk_count db h.id today now).mp hex
        rw [if_neg (by rintro ⟨hz, -⟩; exact hne hz),
          if_neg (by rintro ⟨hz, -⟩; exact hne hz)]
      · exact if_congr (and_congr Iff.rfl (exists_id_cons_iff h rest hid hhid))
          rfl rfl
    · rw [if_neg hex]
      have hzero : atRiskCount db h.id now = 0 := by
        by_contra hnz
        exact hex ((check_existing_at_risk_count db h.id today now).mpr hnz)
      dsimp only [create_notification]
      rw [ih _ (seed + 1)]
      rw [atRiskCount_append_one db _ hid now, atRiskMatches_created]
      by_cases hhid : h.id = hid
      · subst hhid
        rw [hzero]
        rw [if_neg (fun hand => by
          have hz := hand.1
          simp at hz)]
        rw [if_pos (show (0 : Nat) = 0 ∧ ∃ x ∈ h :: rest, x.id = h.id from
          ⟨rfl, ⟨h, List.mem_cons_self h rest, rfl⟩⟩)]
        simp
      · have hBval : (if (h.id == hid) = true then 1 else 0) = 0 := by
          rw [beq_eq_false_iff_ne.mpr hhid]
          simp
        rw [hBval, Nat.add_zero]
        exact if_congr (and_congr Iff.rfl (exists_id_cons_iff h rest hid hhid))
          rfl rfl

/-- Every notification the at-risk loop creates is a `habit_reminder`
carrying the at-risk payload of one of the listed habits, stamped with
the current instant. -/
theorem generateAtRiskLoop_created (today now : Int)
    (habits : List TaskCard) (db : DB) (seed : Nat) :
    ∀ n ∈ (generateAtRiskLoop db today now seed habits).2,
      ∃ h ∈ habits, n.type = "habit_reminder" ∧
        n.data = some (atRiskPayload h) ∧ n.created_at = now := by
  induction habits generalizing db seed with
  | nil =>
    intro n hn
    simp [generateAtRiskLoop] at hn
  | cons h rest ih =>
    intro n hn
    unfold generateAtRiskLoop at hn
    by_cases hex : check_existing_at_risk db h.id today now = true
    · rw [if_pos hex] at hn
      obtain ⟨x, hx, hprops⟩ := ih _ _ n hn
      exact ⟨x, List.mem_cons_of_mem h hx, hprops⟩
    · rw [if_neg hex] at hn
      dsimp only [create_notification] at hn
      rcases List.mem_cons.mp hn with rfl | hm
      · exact ⟨h, List.mem_cons_self h rest, rfl, rfl, rfl⟩
      · obtain ⟨x, hx, hprops⟩ := ih _ _ n hm
        exact ⟨x, List.mem_cons_of_mem h hx, hprops⟩

/-- The SQL row filter of `generate_at_risk_notifications`, read back as
a proposition: active habit, positive streak, and a **non-NULL**
`last_checkin_date` different from today (three-valued `!=`). -/
theorem atRisk_filter_pred_iff (st : Int) (h : TaskCard) :
    (h.is_habit && !h.is_deleted && decide (0 < h.current_streak) &&
      sqlDateNe h.last_checkin_date st) = true ↔
    (h.is_habit = true ∧ h.is_deleted = false ∧ 0 < h.current_streak ∧
      ∃ d, h.last_checkin_date = some d ∧ d ≠ st) := by
  cases hld : h.last_checkin_date with
  | none =>
    simp [sqlDateNe]
  | some d =>
    simp only [sqlDateNe, Bool.and_eq_true, Bool.not_eq_true',
      decide_eq_true_eq, bne_iff_ne]
    constructor
    · rintro ⟨⟨⟨h1, h2⟩, h3⟩, h4⟩
      exact ⟨h1, h2, h3, d, rfl, h4⟩
    · rintro ⟨h1, h2, h3, d2, hd2, h4⟩
      cases hd2
      exact ⟨⟨⟨h1, h2⟩, h3⟩, h4⟩

/-- C5 counterexample: a non-deleted habit with a positive streak whose
`last_checkin_date` is NULL (hence ≠ today) gets **no** at-risk
notification even though none exists: the SQL `last_checkin_date !=
today` filter drops NULL rows. -/
theorem generate_at_risk_counterexample :
    (mkTask "h1" true 3 3 none false).is_habit = true ∧
    (mkTask "h1" true 3 3 none false).is_deleted = false ∧
    0 < (mkTask "h1" true 3 3 none false).current_streak ∧
    (mkTask "h1" true 3 3 none false).last_checkin_date ≠ some 0 ∧
    ({ tasks := [mkTask "h1" true 3 3 none false], checkins := [],
       notifications := [] } : DB).notifications = [] ∧
    (generate_at_risk_notifications
      { tasks := [mkTask "h1" true 3 3 none false], checkins := [],
        notifications := [] } 0 720 0).2 = [] :=
  ⟨rfl, rfl, by decide, by decide, rfl, by decide⟩

/-- C5 (amended): every notification `generate_at_risk_notifications`
creates is a `habit_reminder` with the at-risk payload of an active
habit with positive streak and a **set** `last_checkin_date` different
from today (so a habit with `current_streak = 0`, or a NULL last
check-in date, never receives one); and per habit id the at-risk count
of the current UTC day afterwards is exactly 1 when such a habit exists
and the count was 0, and is unchanged otherwise — in particular at most
one per habit per UTC day. -/
theorem generate_at_risk_spec (db : DB) (st now : Int) (seed : Nat) :
    (∀ n ∈ (generate_at_risk_notifications db st now seed).2,
      ∃ h ∈ db.tasks, h.is_habit = true ∧ h.is_deleted = false ∧
        0 < h.current_streak ∧
        (∃ d, h.last_checkin_date = some d ∧ d ≠ st) ∧
        n.type = "habit_reminder" ∧ n.data = some (atRiskPayload h) ∧
        n.created_at = now) ∧
    (∀ hid : String,
      atRiskCount (generate_at_risk_notifications db st now seed).1
          hid now =
        if atRiskCount db hid now = 0 ∧
            ∃ h ∈ db.tasks, h.id = hid ∧ h.is_habit = true ∧
              h.is_deleted = false ∧ 0 < h.current_streak ∧
              ∃ d, h.last_checkin_date = some d ∧ d ≠ st
        then 1 else atRiskCount db hid now) := by
  constructor
  · intro n hn
    unfold generate_at_risk_notifications at hn
    obtain ⟨h, hf, hty, hdata, hcr⟩ :=
      generateAtRiskLoop_created st now _ db seed n hn
    have hm := List.mem_filter.mp hf
    obtain ⟨h1, h2, h3, h4⟩ := (atRisk_filter_pred_iff st h).mp hm.2
    exact ⟨h, hm.1, h1, h2, h3, h4, hty, hdata, hcr⟩
  · intro hid
    unfold generate_at_risk_notifications
    rw [generateAtRiskLoop_count]
    refine if_congr (and_congr Iff.rfl ?_) rfl rfl
    constructor
    · rintro ⟨h, hf, hideq⟩
      have hm := List.mem_filter.mp hf
      obtain ⟨h1, h2, h3, h4⟩ := (atRisk_filter_pred_iff st h).mp hm.2
      exact ⟨h, hm.1, hideq, h1, h2, h3, h4⟩
    · rintro ⟨h, hmem, hideq, h1, h2, h3, h4⟩
      exact ⟨h, List.mem_filter.mpr
        ⟨hmem, (atRisk_filter_pred_iff st h).mpr ⟨h1, h2, h3, h4⟩⟩, hideq⟩

/-- Witness for C5's amended statement: a habit with streak 3, last
checked in yesterday, receives exactly one at-risk notification. -/
theorem generate_at_risk_spec_witness :
    atRiskCount (generate_at_risk_notifications
      { tasks := [mkTask "h1" true 3 3 (some (-1)) false], checkins := [],
        notifications := [] } 0 720 0).1 "h1" 720 = 1 := by
  rw [(generate_at_risk_spec
    { tasks := [mkTask "h1" true 3 3 (some (-1)) false], checkins := [],
      notifications := [] } 0 720 0).2 "h1"]
  rw [if_pos]
  exact ⟨by decide, ⟨mkTask "h1" true 3 3 (some (-1)) false,
    List.mem_singleton_self _, rfl, rfl, rfl, by decide,
    ⟨-1, rfl, by decide⟩⟩⟩

/-- C8 counterexample: with one active habit and two `daily_complete`
notifications already in the current UTC day (creatable via `POST
/notifications`), a fresh check-in commits its record and streak update
but the post-commit daily-complete check raises
`MultipleResultsFound`, so the response is a 500-style error, **not**
the updated task — refuting "does not fail the check-in response". -/
theorem checkin_postcommit_failure_counterexample :
    (checkin_task
      { tasks := [mkTask "t1" true 0 0 none false], checkins := [],
        notifications := [mkDailyNotif "n1" 700, mkDailyNotif "n2" 710] }
      "t1" none 720 0 "r1" "a1" "d1").2 =
      Except.error (ApiError.internal "MultipleResultsFound") ∧
    (checkin_task
      { tasks := [mkTask "t1" true 0 0 none false], checkins := [],
        notifications := [mkDailyNotif "n1" 700, mkDailyNotif "n2" 710] }
      "t1" none 720 0 "r1" "a1" "d1").1.checkins =
      [mkRecord "r1" "t1" 0 720] ∧
    (checkin_task
      { tasks := [mkTask "t1" true 0 0 none false], checkins := [],
        notifications := [mkDailyNotif "n1" 700, mkDailyNotif "n2" 710] }
      "t1" none 720 0 "r1" "a1" "d1").1.tasks =
      [mkTask "t1" true 1 1 (some 0) false] := by
  refine ⟨rfl, rfl, rfl⟩

/-- C8 (amended): when the post-commit achievement/daily-complete phase
raises after a successful first check-in, the committed state is kept —
the inserted record and the updated streak fields survive — but the
exception propagates and the check-in response is an internal error
rather than the updated task. -/
theorem checkin_postcommit_failure_keeps_commit (db : DB) (tid : String)
    (cd : Option Int) (now st : Int) (rid aid did : String)
    (task : TaskCard) (e : String)
    (hfind : db.tasks.filter (fun t => t.id == tid) = [task])
    (hnone : db.checkins.filter (fun r => r.task_id == tid &&
      r.checkin_date == get_local_date now (cd.getD 0)) = [])
    (herr : check_daily_complete
      (check_streak_achievement
        (commitCheckin db task tid (get_local_date now (cd.getD 0)) now rid)
        tid (calculate_streak task.last_checkin_date task.current_streak
          (get_local_date now (cd.getD 0)))
        task.title now aid).1 st now did = Except.error e) :
    (checkin_task db tid cd now st rid aid did).2 =
      Except.error (ApiError.internal e) ∧
    (checkin_task db tid cd now st rid aid did).1.checkins =
      db.checkins ++
        [{ id := rid, task_id := tid,
           checkin_date := get_local_date now (cd.getD 0),
           checkin_time := now }] ∧
    (checkin_task db tid cd now st rid aid did).1.tasks =
      replaceTask db.tasks
        (applyCheckin task (get_local_date now (cd.getD 0))) := by
  rw [checkin_task_insert_eq db tid cd now st rid aid did task hfind hnone]
  dsimp only
  rw [herr]
  have hach := check_streak_achievement_extends
    (commitCheckin db task tid (get_local_date now (cd.getD 0)) now rid)
    tid (calculate_streak task.last_checkin_date task.current_streak
      (get_local_date now (cd.getD 0))) task.title now aid
  refine ⟨rfl, ?_, ?_⟩
  · rw [hach.2.1]
    rfl
  · rw [hach.1]
    rfl

/-- Witness for C8's amended statement at the counterexample store. -/
theorem checkin_postcommit_failure_keeps_commit_witness :
    (checkin_task
      { tasks := [mkTask "t1" true 0 0 none false], checkins := [],
        notifications := [mkDailyNotif "n1" 700, mkDailyNotif "n2" 710] }
      "t1" none 720 0 "r1" "a1" "d1").2 =
      Except.error (ApiError.internal "MultipleResultsFound") ∧
    (checkin_task
      { tasks := [mkTask "t1" true 0 0 none false], checkins := [],
        notifications := [mkDailyNotif "n1" 700, mkDailyNotif "n2" 710] }
      "t1" none 720 0 "r1" "a1" "d1").1.checkins =
      ([] : List CheckinRecord) ++
        [{ id := "r1", task_id := "t1",
           checkin_date := get_local_date 720 ((none : Option Int).getD 0),
           checkin_time := 720 }] ∧
    (checkin_task
      { tasks := [mkTask "t1" true 0 0 none false], checkins := [],
        notifications := [mkDailyNotif "n1" 700, mkDailyNotif "n2" 710] }
      "t1" none 720 0 "r1" "a1" "d1").1.tasks =
      replaceTask [mkTask "t1" true 0 0 none false]
        (applyCheckin (mkTask "t1" true 0 0 none false)
          (get_local_date 720 ((none : Option Int).getD 0))) :=
  checkin_postcommit_failure_keeps_commit
    { tasks := [mkTask "t1" true 0 0 none false], checkins := [],
      notifications := [mkDailyNotif "n1" 700, mkDailyNotif "n2" 710] }
    "t1" none 720 0 "r1" "a1" "d1" (mkTask "t1" true 0 0 none false)
    "MultipleResultsFound" (by decide) (by decide) rfl

theorem dailyCount_append_non_daily (db : DB) (n : Notification)
    (now : Int) (hty : n.type ≠ "daily_complete") :
    dailyCount { db with notifications := db.notifications ++ [n] } now =
      dailyCount db now := by
  unfold dailyCount
  rw [List.filter_append, List.length_append]
  have hz : (List.filter (fun n : Notification =>
      n.type == "daily_complete" && inUtcDayWindow n.created_at now)
      [n]).length = 0 := by
    simp [List.filter, beq_eq_false_iff_ne.mpr hty]
  omega

theorem dailyCount_achievement (db : DB) (hid : String) (s : Int)
    (ti : String) (now2 : Int) (nid : String) (now : Int) :
    dailyCount (check_streak_achievement db hid s ti now2 nid).1 now =
      dailyCount db now := by
  unfold check_streak_achievement
  split
  · rfl
  · split
    · rfl
    · dsimp only [create_notification]
      refine dailyCount_append_non_daily db _ now ?_
      intro hcon
      simp at hcon

theorem check_existing_daily_complete_ok (db : DB) (st now : Int)
    (h : dailyCount db now ≤ 1) :
    ∃ b, check_existing_daily_complete db st now = Except.ok b := by
  unfold check_existing_daily_complete
  unfold dailyCount at h
  rcases hl : db.notifications.filter (fun n =>
      n.type == "daily_complete" && inUtcDayWindow n.created_at now) with
    _ | ⟨a, _ | ⟨b, l2⟩⟩
  · exact ⟨false, by rw [hl]; rfl⟩
  · exact ⟨true, by rw [hl]; rfl⟩
  · rw [hl] at h
    simp at h

theorem check_daily_complete_ok_of_count (db : DB) (st now : Int)
    (nid : String) (h : dailyCount db now ≤ 1) :
    ∃ q, check_daily_complete db st now nid = Except.ok q := by
  obtain ⟨b, hb⟩ := check_existing_daily_complete_ok db st now h
  unfold check_daily_complete
  rw [hb]
  cases b
  all_goals
    dsimp only
    split
  · exact ⟨_, rfl⟩
  · split
    · exact ⟨_, rfl⟩
    · exact ⟨_, rfl⟩
  · exact ⟨_, rfl⟩
  · split
    · exact ⟨_, rfl⟩
    · exact ⟨_, rfl⟩

/-- C10 counterexample: a resolvable task id can still fail with an
internal error (not `NotFound`): checking in a soft-deleted non-habit
task while an already-complete active habit and two `daily_complete`
notifications of the current UTC day are stored makes the post-commit
daily check raise, failing the response. -/
theorem checkin_no_precondition_counterexample :
    ({ tasks := [mkTask "t2" false 0 0 none true,
                 mkTask "h1" true 1 1 (some 0) false],
       checkins := [],
       notifications := [mkDailyNotif "n1" 700,
                         mkDailyNotif "n2" 710] } : DB).tasks.filter
      (fun t => t.id == "t2") = [mkTask "t2" false 0 0 none true] ∧
    (checkin_task
      { tasks := [mkTask "t2" false 0 0 none true,
                  mkTask "h1" true 1 1 (some 0) false],
        checkins := [],
        notifications := [mkDailyNotif "n1" 700, mkDailyNotif "n2" 710] }
      "t2" none 720 0 "r1" "a1" "d1").2 =
      Except.error (ApiError.internal "MultipleResultsFound") :=
  ⟨rfl, rfl⟩

/-- C10 (amended): the check-in endpoint imposes no precondition beyond
task existence: a stored task with `is_habit = false` or
`is_deleted = true` takes its first daily check-in exactly like an
active habit — record inserted, streak fields updated by the same
formula — whenever the post-commit daily-complete dedup query cannot
raise (at most one `daily_complete` notification in the current UTC
day); an unresolvable id fails with `NotFound`, and the remaining
failure case is an internal error propagated from the post-commit
notification phase. -/
theorem checkin_no_precondition (db : DB) (tid : String) (cd : Option Int)
    (now st : Int) (rid aid did : String) (task : TaskCard)
    (hfind : db.tasks.filter (fun t => t.id == tid) = [task])
    (hnone : db.checkins.filter (fun r => r.task_id == tid &&
      r.checkin_date == get_local_date now (cd.getD 0)) = [])
    (hdaily : dailyCount db now ≤ 1) :
    (checkin_task db tid cd now st rid aid did).2 =
      Except.ok (applyCheckin task (get_local_date now (cd.getD 0))) ∧
    (checkin_task db tid cd now st rid aid did).1.checkins =
      db.checkins ++
        [{ id := rid, task_id := tid,
           checkin_date := get_local_date now (cd.getD 0),
           checkin_time := now }] ∧
    (checkin_task db tid cd now st rid aid did).1.tasks =
      replaceTask db.tasks
        (applyCheckin task (get_local_date now (cd.getD 0))) ∧
    (∀ tid2, db.tasks.filter (fun t => t.id == tid2) = [] →
      checkin_task db tid2 cd now st rid aid did =
        (db, Except.error (ApiError.notFound
          ("Task with id " ++ tid2 ++ " not found")))) := by
  have hdaily2 : dailyCount
      (check_streak_achievement
        (commitCheckin db task tid (get_local_date now (cd.getD 0)) now rid)
        tid (calculate_streak task.last_checkin_date task.current_streak
          (get_local_date now (cd.getD 0)))
        task.title now aid).1 now ≤ 1 := by
    rw [dailyCount_achievement]
    exact hdaily
  obtain ⟨q, hq⟩ := check_daily_complete_ok_of_count _ st now did hdaily2
  have hach := check_streak_achievement_extends
    (commitCheckin db task tid (get_local_date now (cd.getD 0)) now rid)
    tid (calculate_streak task.last_checkin_date task.current_streak
      (get_local_date now (cd.getD 0))) task.title now aid
  have hdq := check_daily_complete_ok_extends hq
  rw [checkin_task_insert_eq db tid cd now st rid aid did task hfind hnone]
  dsimp only
  rw [hq]
  refine ⟨rfl, ?_, ?_, ?_⟩
  · rw [hdq.2.1, hach.2.1]
    rfl
  · rw [hdq.1, hach.1]
    rfl
  · intro tid2 hnil
    exact checkin_task_not_found_eq db tid2 cd now st rid aid did hnil

/-- Witness for C10's amended statement: first check-in of a
soft-deleted non-habit task succeeds and updates the streak fields like
any habit. -/
theorem checkin_no_precondition_witness :
    (checkin_task
      { tasks := [mkTask "t2" false 0 0 none true], checkins := [],
        notifications := [] } "t2" none 720 0 "r1" "a1" "d1").2 =
      Except.ok (applyCheckin (mkTask "t2" false 0 0 none true)
        (get_local_date 720 ((none : Option Int).getD 0))) :=
  (checkin_no_precondition
    { tasks := [mkTask "t2" false 0 0 none true], checkins := [],
      notifications := [] } "t2" none 720 0 "r1" "a1" "d1"
    (mkTask "t2" false 0 0 none true)
    (by decide) (by decide) (by decide)).1

end Lifeflow
